import Mathlib

/-!
Verification of the Aethelstan windowed feature extraction and behavioral
feature engineering pipeline. The definitions below are shallow embeddings
of the Python source: counters are naturals, float arithmetic is modelled
over the rationals, and pandas column operations become list operations.
-/

namespace Aethelstan

/-! Embedding of backend/utils/helper.py (WindowHelpers). -/

/-- Transport-layer classification of a decoded IP packet, mirroring the
scapy haslayer chain in WindowHelpers.update_window: TCP and UDP expose
source and destination ports, ICMP and any other protocol expose none. -/
inductive L4 where
  | tcp (sport dport : Nat)
  | udp (sport dport : Nat)
  | icmp
  | other
deriving DecidableEq, Repr

/-- A decoded IP packet as consumed by WindowHelpers.update_window:
wire length (len pkt), IP source and destination (modelled as naturals),
the raw ip.proto number, and the transport-layer classification. -/
structure Pkt where
  len : Nat
  src : Nat
  dst : Nat
  proto : Nat
  l4 : L4
deriving DecidableEq, Repr

/-- A flow key as built in update_window: (ip.src, sport, ip.dst, dport,
ip.proto). -/
abbrev FlowKey := Nat × Nat × Nat × Nat × Nat

/-- The mutable per-window statistics dictionary of WindowHelpers. -/
structure WindowStats where
  packet_count : Nat
  total_bytes : Nat
  tcp_count : Nat
  udp_count : Nat
  icmp_count : Nat
  other_protocol_count : Nat
  unique_src_ips : Finset Nat
  unique_dst_ips : Finset Nat
  flows : Finset FlowKey
deriving DecidableEq

/-- WindowHelpers.new_window: all counters zero, all sets empty. -/
def new_window : WindowStats :=
  { packet_count := 0
    total_bytes := 0
    tcp_count := 0
    udp_count := 0
    icmp_count := 0
    other_protocol_count := 0
    unique_src_ips := ∅
    unique_dst_ips := ∅
    flows := ∅ }

/-- WindowHelpers.update_window: increments packet and byte counters, adds
the IPs to the diversity sets, increments exactly one protocol counter
along the TCP / UDP / ICMP / else chain, and records the flow 5-tuple only
when both ports were set, which happens exactly for TCP and UDP. -/
def update_window (pkt : Pkt) (s : WindowStats) : WindowStats :=
  let s :=
    { s with
      packet_count := s.packet_count + 1
      total_bytes := s.total_bytes + pkt.len
      unique_src_ips := insert pkt.src s.unique_src_ips
      unique_dst_ips := insert pkt.dst s.unique_dst_ips }
  match pkt.l4 with
  | .tcp sp dp =>
      { s with
        tcp_count := s.tcp_count + 1
        flows := insert (pkt.src, sp, pkt.dst, dp, pkt.proto) s.flows }
  | .udp sp dp =>
      { s with
        udp_count := s.udp_count + 1
        flows := insert (pkt.src, sp, pkt.dst, dp, pkt.proto) s.flows }
  | .icmp => { s with icmp_count := s.icmp_count + 1 }
  | .other => { s with other_protocol_count := s.other_protocol_count + 1 }

/-- Accumulate a list of packets into one window, starting from a fresh
accumulator, applying the per-packet update once per packet. -/
def runWindow (pkts : List Pkt) : WindowStats :=
  pkts.foldl (fun s p => update_window p s) new_window

/-- Sum of the four protocol counters of an accumulator. -/
def protoSum (s : WindowStats) : Nat :=
  s.tcp_count + s.udp_count + s.icmp_count + s.other_protocol_count

/-- The flow key recorded for a TCP or UDP packet in update_window. -/
def flowKeyOf (p : Pkt) (sp dp : Nat) : FlowKey :=
  (p.src, sp, p.dst, dp, p.proto)

/-- WindowHelpers.finalize_window duration: max(window_end − window_start,
1e-6). -/
def finalize_duration (window_start window_end : ℚ) : ℚ :=
  max (window_end - window_start) (1 / 1000000)

/-- WindowHelpers.finalize_window bandwidth_bps: total_bytes * 8 divided by
the floored duration. -/
def bandwidth_bps (total_bytes : Nat) (window_start window_end : ℚ) : ℚ :=
  (total_bytes * 8 : ℚ) / finalize_duration window_start window_end

lemma update_window_packet_count (p : Pkt) (s : WindowStats) :
    (update_window p s).packet_count = s.packet_count + 1 := by
  cases h : p.l4 <;> simp [update_window, h]

lemma update_window_protoSum (p : Pkt) (s : WindowStats) :
    protoSum (update_window p s) = protoSum s + 1 := by
  cases h : p.l4 <;> simp [update_window, protoSum, h] <;> omega

lemma runWindow_invariant (pkts : List Pkt) :
    protoSum (runWindow pkts) = (runWindow pkts).packet_count := by
  suffices h : ∀ s : WindowStats, protoSum s = s.packet_count →
      protoSum (pkts.foldl (fun s p => update_window p s) s) =
        (pkts.foldl (fun s p => update_window p s) s).packet_count by
    exact h new_window rfl
  induction pkts with
  | nil => intro s hs; simpa using hs
  | cons p rest ih =>
      intro s hs
      simp only [List.foldl_cons]
      exact ih _ (by rw [update_window_protoSum, update_window_packet_count, hs])

lemma foldl_update_preserve {P : WindowStats → Prop}
    (h : ∀ p s, P s → P (update_window p s)) :
    ∀ (pkts : List Pkt) (s : WindowStats),
      P s → P (pkts.foldl (fun s p => update_window p s) s) := by
  intro pkts
  induction pkts with
  | nil => intro s hs; simpa using hs
  | cons p rest ih =>
      intro s hs
      simp only [List.foldl_cons]
      exact ih _ (h p s hs)

lemma update_window_flow_card (p : Pkt) (s : WindowStats)
    (hs : s.flows.card ≤ s.tcp_count + s.udp_count) :
    (update_window p s).flows.card ≤
      (update_window p s).tcp_count + (update_window p s).udp_count := by
  cases h : p.l4 with
  | tcp sp dp =>
      simp only [update_window, h]
      have := Finset.card_insert_le (p.src, sp, p.dst, dp, p.proto) s.flows
      omega
  | udp sp dp =>
      simp only [update_window, h]
      have := Finset.card_insert_le (p.src, sp, p.dst, dp, p.proto) s.flows
      omega
  | icmp => simpa [update_window, h] using hs
  | other => simpa [update_window, h] using hs

end Aethelstan

namespace Aethelstan

/-- C2: starting from a fresh accumulator and applying the per-packet
update once per packet, after every update (that is, after any list of
packets has been absorbed) the protocol counters partition the packets:
tcp_count + udp_count + icmp_count + other_protocol_count equals
packet_count. -/
theorem update_window_partitions_protocols (pkts : List Pkt) :
    (runWindow pkts).tcp_count + (runWindow pkts).udp_count +
      (runWindow pkts).icmp_count + (runWindow pkts).other_protocol_count =
      (runWindow pkts).packet_count :=
  runWindow_invariant pkts

/-- C9 counterexample: processing a single ICMP packet records no flow key
at all — the flow set stays empty although packet_count becomes 1 — so it
is false that every packet (with ports 0 for ICMP/other) is recorded in
the flow bookkeeping. -/
theorem icmp_packet_records_no_flow :
    (update_window ⟨100, 1, 2, 1, L4.icmp⟩ new_window).flows = ∅ ∧
    (update_window ⟨100, 1, 2, 1, L4.icmp⟩ new_window).packet_count = 1 := by
  exact ⟨rfl, rfl⟩

/-- C9 amended: update_window records exactly one FlowKey 5-tuple
(src_ip, src_port, dst_ip, dst_port, ip_proto) for each TCP or UDP packet
and records no flow entry for ICMP or other packets; consequently the flow
set never accounts for more than the TCP and UDP packets of the window
(its cardinality is at most tcp_count + udp_count). -/
theorem flow_bookkeeping_tcp_udp_only :
    (∀ p s, (update_window p s).flows =
      match p.l4 with
      | .tcp sp dp => insert (flowKeyOf p sp dp) s.flows
      | .udp sp dp => insert (flowKeyOf p sp dp) s.flows
      | .icmp => s.flows
      | .other => s.flows) ∧
    (∀ pkts, (runWindow pkts).flows.card ≤
      (runWindow pkts).tcp_count + (runWindow pkts).udp_count) := by
  constructor
  · intro p s
    cases h : p.l4 <;> simp [update_window, h, flowKeyOf]
  · intro pkts
    exact foldl_update_preserve
      (P := fun s => s.flows.card ≤ s.tcp_count + s.udp_count)
      update_window_flow_card pkts new_window (by simp [new_window])

end Aethelstan

namespace Aethelstan

/-! Embedding of the per-window rows consumed by scripts/data_cleanup.py
and the behavioral feature engineering scripts. One RawWindow is one row
of the data frame loaded from the extractor JSON output. -/

/-- One extractor output row (a WindowRecord) as loaded into the pandas
data frame: integer counters plus the float columns the scripts read. -/
structure RawWindow where
  packet_count : Nat
  total_bytes : Nat
  tcp_count : Nat
  udp_count : Nat
  icmp_count : Nat
  other_count : Nat
  flow_count : Nat
  unique_src_ips : Nat
  unique_dst_ips : Nat
  window_start : ℚ
  window_end : ℚ
  bytes_per_sec : ℚ
  tcp_ratio : ℚ
  udp_ratio : ℚ
  icmp_ratio : ℚ
  other_ratio : ℚ
  min_packet_size : ℚ
  max_packet_size : ℚ
  avg_packet_size : ℚ
deriving DecidableEq, Repr

/-- A row with every field zero, used to build concrete test rows. -/
def zeroWindow : RawWindow :=
  { packet_count := 0
    total_bytes := 0
    tcp_count := 0
    udp_count := 0
    icmp_count := 0
    other_count := 0
    flow_count := 0
    unique_src_ips := 0
    unique_dst_ips := 0
    window_start := 0
    window_end := 0
    bytes_per_sec := 0
    tcp_ratio := 0
    udp_ratio := 0
    icmp_ratio := 0
    other_ratio := 0
    min_packet_size := 0
    max_packet_size := 0
    avg_packet_size := 0 }

/-! data_cleanup.clean_and_engineer_features. The ratio columns use
np.divide with a where-guard writing 0 where packet_count is 0. -/

/-- data_cleanup tcp_ratio: tcp_count / packet_count, 0 when
packet_count is 0. -/
def dc_tcp_ratio (w : RawWindow) : ℚ :=
  if w.packet_count = 0 then 0 else (w.tcp_count : ℚ) / (w.packet_count : ℚ)

/-- data_cleanup udp_ratio, guarded like dc_tcp_ratio. -/
def dc_udp_ratio (w : RawWindow) : ℚ :=
  if w.packet_count = 0 then 0 else (w.udp_count : ℚ) / (w.packet_count : ℚ)

/-- data_cleanup icmp_ratio, guarded like dc_tcp_ratio. -/
def dc_icmp_ratio (w : RawWindow) : ℚ :=
  if w.packet_count = 0 then 0 else (w.icmp_count : ℚ) / (w.packet_count : ℚ)

/-- data_cleanup other_ratio, guarded like dc_tcp_ratio. -/
def dc_other_ratio (w : RawWindow) : ℚ :=
  if w.packet_count = 0 then 0 else (w.other_count : ℚ) / (w.packet_count : ℚ)

/-- data_cleanup packets_per_sec: packet_count divided by the raw duration
window_end − window_start with no floor; the trailing fillna(0) and
replace(inf, 0) steps of clean_and_engineer_features turn the non-finite
result of a zero duration into 0, which the zero-duration branch models. -/
def dc_packets_per_sec (w : RawWindow) : ℚ :=
  if w.window_end - w.window_start = 0 then 0
  else (w.packet_count : ℚ) / (w.window_end - w.window_start)

/-- data_cleanup bytes_per_sec, same raw division as dc_packets_per_sec. -/
def dc_bytes_per_sec (w : RawWindow) : ℚ :=
  if w.window_end - w.window_start = 0 then 0
  else (w.total_bytes : ℚ) / (w.window_end - w.window_start)

/-- Modelled from the claim wording, for comparison with the source
definition: packet_count divided by max(duration, 1e-6). -/
def claimed_packets_per_sec (w : RawWindow) : ℚ :=
  (w.packet_count : ℚ) / max (w.window_end - w.window_start) (1 / 1000000)

/-! Behavioral feature engineering: the per-row columns shared by
scripts/train_behavioral_model.py, scripts/infer_behavioral_model.py and
scripts/run_production_inference.py (engineer_behavioral_features). -/

/-- engineer_behavioral_features bytes_per_packet:
total_bytes / (packet_count + 1). -/
def bfe_bytes_per_packet (w : RawWindow) : ℚ :=
  (w.total_bytes : ℚ) / ((w.packet_count : ℚ) + 1)

/-- engineer_scale_robust_features bytes_per_packet
(scripts/retrain_scale_robust.py): total_bytes divided by packet_count
with 0 replaced by 1. -/
def sr_bytes_per_packet (w : RawWindow) : ℚ :=
  (w.total_bytes : ℚ) /
    ((if w.packet_count = 0 then 1 else w.packet_count : Nat) : ℚ)

/-- Modelled from the claim wording, for comparison with the source
definition: total_bytes divided by max(packet_count, 1). -/
def claimed_bytes_per_packet (w : RawWindow) : ℚ :=
  (w.total_bytes : ℚ) / ((max w.packet_count 1 : Nat) : ℚ)

/-- engineer_behavioral_features protocol_diversity. The source evaluates
the natural logarithm in floating point; the claims about this column are
structural, so the logarithm is passed in as an arbitrary rational
function ln. Only the tcp, udp and icmp ratio columns appear. -/
def protocol_diversity (ln : ℚ → ℚ) (w : RawWindow) : ℚ :=
  -(w.tcp_ratio * ln (w.tcp_ratio + 1 / 1000000) +
    w.udp_ratio * ln (w.udp_ratio + 1 / 1000000) +
    w.icmp_ratio * ln (w.icmp_ratio + 1 / 1000000))

end Aethelstan

namespace Aethelstan

/-- C5: for every window row, if packet_count is 0 then all four
data_cleanup ratios are 0 (the zero denominator is guarded); otherwise
each ratio equals its protocol count divided by packet_count and, since
the counts of an emitted window partition packet_count, the four ratios
sum to exactly 1. -/
theorem dc_ratios_guarded_and_sum_to_one (w : RawWindow)
    (hpart : w.tcp_count + w.udp_count + w.icmp_count + w.other_count =
      w.packet_count) :
    (w.packet_count = 0 →
      dc_tcp_ratio w = 0 ∧ dc_udp_ratio w = 0 ∧
      dc_icmp_ratio w = 0 ∧ dc_other_ratio w = 0) ∧
    (w.packet_count ≠ 0 →
      dc_tcp_ratio w = (w.tcp_count : ℚ) / (w.packet_count : ℚ) ∧
      dc_udp_ratio w = (w.udp_count : ℚ) / (w.packet_count : ℚ) ∧
      dc_icmp_ratio w = (w.icmp_count : ℚ) / (w.packet_count : ℚ) ∧
      dc_other_ratio w = (w.other_count : ℚ) / (w.packet_count : ℚ) ∧
      dc_tcp_ratio w + dc_udp_ratio w + dc_icmp_ratio w + dc_other_ratio w
        = 1) := by
  constructor
  · intro h0
    simp [dc_tcp_ratio, dc_udp_ratio, dc_icmp_ratio, dc_other_ratio, h0]
  · intro hne
    have hq : (w.packet_count : ℚ) ≠ 0 := Nat.cast_ne_zero.mpr hne
    refine ⟨by simp [dc_tcp_ratio, hne], by simp [dc_udp_ratio, hne],
      by simp [dc_icmp_ratio, hne], by simp [dc_other_ratio, hne], ?_⟩
    simp only [dc_tcp_ratio, dc_udp_ratio, dc_icmp_ratio, dc_other_ratio,
      if_neg hne]
    rw [div_add_div_same, div_add_div_same, div_add_div_same,
      div_eq_one_iff_eq hq]
    exact_mod_cast congrArg (Nat.cast (R := ℚ)) hpart

/-- C5 witness: the theorem applied to a concrete row with counts
1 + 1 + 1 + 1 = 4. -/
theorem dc_ratios_guarded_and_sum_to_one_witness :
    (let w := { zeroWindow with
                packet_count := 4, tcp_count := 1,
                udp_count := 1, icmp_count := 1, other_count := 1 };
    w.packet_count ≠ 0 →
      dc_tcp_ratio w = (w.tcp_count : ℚ) / (w.packet_count : ℚ) ∧
      dc_udp_ratio w = (w.udp_count : ℚ) / (w.packet_count : ℚ) ∧
      dc_icmp_ratio w = (w.icmp_count : ℚ) / (w.packet_count : ℚ) ∧
      dc_other_ratio w = (w.other_count : ℚ) / (w.packet_count : ℚ) ∧
      dc_tcp_ratio w + dc_udp_ratio w + dc_icmp_ratio w + dc_other_ratio w
        = 1) :=
  (dc_ratios_guarded_and_sum_to_one _ (by decide)).2

/-- A zero-duration window row holding 5 packets, used to separate the
data_cleanup per-second rates from the claimed floored division. -/
def zeroDurationRow : RawWindow := { zeroWindow with packet_count := 5 }

/-- A window row with 1 packet and 100 bytes, used to separate the
behavioral bytes_per_packet from the claimed max-guarded division. -/
def onePacketRow : RawWindow :=
  { zeroWindow with packet_count := 1, total_bytes := 100 }

/-- C6 counterexample: for a zero-duration window holding 5 packets,
data_cleanup computes packets_per_sec as 5 divided by the raw duration 0
(a non-finite value later replaced by 0), not as 5 divided by the floored
duration 1e-6, which would be 5000000; so the claimed floor at 1e-6 is
absent from the packets_per_sec and bytes_per_sec computation. -/
theorem packets_per_sec_floor_counterexample :
    dc_packets_per_sec zeroDurationRow = 0 ∧
    claimed_packets_per_sec zeroDurationRow = 5000000 ∧
    dc_packets_per_sec zeroDurationRow ≠
      claimed_packets_per_sec zeroDurationRow := by
  have h1 : dc_packets_per_sec zeroDurationRow = 0 := by
    norm_num [dc_packets_per_sec, zeroDurationRow, zeroWindow]
  have h2 : claimed_packets_per_sec zeroDurationRow = 5000000 := by
    norm_num [claimed_packets_per_sec, zeroDurationRow, zeroWindow]
  exact ⟨h1, h2, by rw [h1, h2]; norm_num⟩

/-- C6 amended: data_cleanup divides packet_count and total_bytes by the
raw duration window_end − window_start with no floor, and the non-finite
result of a zero-duration window is replaced by 0 at the end of the
cleanup; the 1e-6 floor exists only in finalize_window, whose
duration max(window_end − window_start, 1e-6) is nonzero (at least 1e-6),
so its bandwidth division is well-defined even for zero duration. -/
theorem per_sec_rates_division_semantics :
    (∀ w : RawWindow, w.window_end - w.window_start ≠ 0 →
      dc_packets_per_sec w =
        (w.packet_count : ℚ) / (w.window_end - w.window_start) ∧
      dc_bytes_per_sec w =
        (w.total_bytes : ℚ) / (w.window_end - w.window_start)) ∧
    (∀ w : RawWindow, w.window_end - w.window_start = 0 →
      dc_packets_per_sec w = 0 ∧ dc_bytes_per_sec w = 0) ∧
    (∀ (tb : Nat) (ws we : ℚ),
      1 / 1000000 ≤ finalize_duration ws we ∧
      finalize_duration ws we ≠ 0 ∧
      bandwidth_bps tb ws we = (tb * 8 : ℚ) / finalize_duration ws we) := by
  refine ⟨fun w h => ?_, fun w h => ?_, fun tb ws we => ?_⟩
  · exact ⟨by rw [dc_packets_per_sec, if_neg h],
      by rw [dc_bytes_per_sec, if_neg h]⟩
  · exact ⟨by rw [dc_packets_per_sec, if_pos h],
      by rw [dc_bytes_per_sec, if_pos h]⟩
  · have hle : (1 / 1000000 : ℚ) ≤ finalize_duration ws we :=
      le_max_right _ _
    exact ⟨hle, by positivity, rfl⟩

/-- C6 witness: the amended theorem applied to a one-second window with 5
packets and 300 bytes, and to finalize_duration at a zero duration. -/
theorem per_sec_rates_division_semantics_witness :
    (dc_packets_per_sec
        { zeroWindow with packet_count := 5, total_bytes := 300,
                          window_end := 1 } =
      ((5 : ℚ)) / ((1 : ℚ) - 0) ∧
    dc_bytes_per_sec
        { zeroWindow with packet_count := 5, total_bytes := 300,
                          window_end := 1 } =
      ((300 : ℚ)) / ((1 : ℚ) - 0)) ∧
    (1 / 1000000 ≤ finalize_duration 0 0 ∧
      finalize_duration 0 0 ≠ 0 ∧
      bandwidth_bps 300 0 0 = (300 * 8 : ℚ) / finalize_duration 0 0) :=
  ⟨per_sec_rates_division_semantics.1
      { zeroWindow with packet_count := 5, total_bytes := 300,
                        window_end := 1 } (by norm_num [zeroWindow]),
    per_sec_rates_division_semantics.2.2 300 0 0⟩

/-- C4 counterexample: a window with packet_count 1 and total_bytes 100
gets bytes_per_packet 100 / (1 + 1) = 50 from
engineer_behavioral_features, while total_bytes / max(packet_count, 1)
would be 100. -/
theorem bytes_per_packet_counterexample :
    bfe_bytes_per_packet onePacketRow = 50 ∧
    claimed_bytes_per_packet onePacketRow = 100 ∧
    bfe_bytes_per_packet onePacketRow ≠
      claimed_bytes_per_packet onePacketRow := by
  have h1 : bfe_bytes_per_packet onePacketRow = 50 := by
    norm_num [bfe_bytes_per_packet, onePacketRow, zeroWindow]
  have h2 : claimed_bytes_per_packet onePacketRow = 100 := by
    norm_num [claimed_bytes_per_packet, onePacketRow, zeroWindow]
  exact ⟨h1, h2, by rw [h1, h2]; norm_num⟩

/-- C4 amended: the behavioral feature engineering computes
bytes_per_packet as total_bytes / (packet_count + 1); only the
scale-robust variant engineer_scale_robust_features divides by
packet_count with 0 replaced by 1, which coincides with the claimed
total_bytes / max(packet_count, 1). -/
theorem bytes_per_packet_formulas :
    (∀ w : RawWindow, bfe_bytes_per_packet w =
      (w.total_bytes : ℚ) / ((w.packet_count : ℚ) + 1)) ∧
    (∀ w : RawWindow, sr_bytes_per_packet w = claimed_bytes_per_packet w) := by
  refine ⟨fun w => rfl, fun w => ?_⟩
  have hmax : (if w.packet_count = 0 then 1 else w.packet_count) =
      max w.packet_count 1 := by
    rcases Nat.eq_zero_or_pos w.packet_count with h | h
    · simp [h]
    · rw [if_neg (by omega), Nat.max_eq_left h]
  rw [sr_bytes_per_packet, claimed_bytes_per_packet, hmax]

/-- C8: protocol_diversity is exactly the negated sum of
r · ln(r + 1e-6) over the tcp, udp and icmp ratio columns, and it is
invariant under any change of the other_ratio column — the other_ratio
present in the window row contributes nothing. -/
theorem protocol_diversity_three_protocols :
    (∀ (ln : ℚ → ℚ) (w : RawWindow), protocol_diversity ln w =
      -(w.tcp_ratio * ln (w.tcp_ratio + 1 / 1000000) +
        w.udp_ratio * ln (w.udp_ratio + 1 / 1000000) +
        w.icmp_ratio * ln (w.icmp_ratio + 1 / 1000000))) ∧
    (∀ (ln : ℚ → ℚ) (w : RawWindow) (o : ℚ),
      protocol_diversity ln { w with other_ratio := o } =
        protocol_diversity ln w) :=
  ⟨fun _ _ => rfl, fun _ _ _ => rfl⟩

end Aethelstan

namespace Aethelstan

/-! The rolling baseline of engineer_behavioral_features:
df.rolling(window=R, min_periods=1).mean() followed by
(x − rolling) / (rolling + 1), computed only when the frame has at least
R rows, and a constant 0.0 column otherwise. -/

/-- The values seen by the pandas rolling window of length R with
min_periods 1 at row i: the last min(i + 1, R) values up to and
including row i. -/
def lastWin (R : Nat) (xs : List ℚ) (i : Nat) : List ℚ :=
  (xs.take (i + 1)).drop (i + 1 - R)

/-- Series.rolling(window=R, min_periods=1).mean() at row i: the
arithmetic mean of the last min(i + 1, R) values. -/
def rollingMean (R : Nat) (xs : List ℚ) (i : Nat) : ℚ :=
  (lastWin R xs i).sum / ((lastWin R xs i).length : ℚ)

/-- One pct_change column of engineer_behavioral_features: when the frame
has at least R rows, row i holds (x_i − rolling_i) / (rolling_i + 1);
otherwise the whole column is 0.0. -/
def pctChange (R : Nat) (xs : List ℚ) : List ℚ :=
  if R ≤ xs.length then
    (List.range xs.length).map fun i =>
      (xs.getD i 0 - rollingMean R xs i) / (rollingMean R xs i + 1)
  else
    List.replicate xs.length 0

/-- The pct_change_packets column of engineer_behavioral_features. -/
def bfe_pct_change_packets (R : Nat) (ws : List RawWindow) : List ℚ :=
  pctChange R (ws.map fun w => (w.packet_count : ℚ))

/-- The pct_change_bytes_ps column of engineer_behavioral_features. -/
def bfe_pct_change_bytes_ps (R : Nat) (ws : List RawWindow) : List ℚ :=
  pctChange R (ws.map fun w => w.bytes_per_sec)

/-- The pct_change_flows column of engineer_behavioral_features. -/
def bfe_pct_change_flows (R : Nat) (ws : List RawWindow) : List ℚ :=
  pctChange R (ws.map fun w => (w.flow_count : ℚ))

lemma lastWin_length (R : Nat) (xs : List ℚ) (i : Nat)
    (hi : i < xs.length) : (lastWin R xs i).length = min (i + 1) R := by
  simp only [lastWin, List.length_drop, List.length_take]
  omega

lemma pctChange_getD (R : Nat) (xs : List ℚ) (i : Nat)
    (hR : R ≤ xs.length) (hi : i < xs.length) :
    (pctChange R xs).getD i 0 =
      (xs.getD i 0 - rollingMean R xs i) / (rollingMean R xs i + 1) := by
  rw [pctChange, if_pos hR, List.getD_eq_getElem?_getD, List.getElem?_map,
    List.getElem?_range hi]
  rfl

/-- A window row holding 10 packets, for the concrete baseline scenario. -/
def baselineRow10 : RawWindow := { zeroWindow with packet_count := 10 }

/-- A window row holding 100 packets, for the concrete baseline scenario. -/
def baselineRow100 : RawWindow := { zeroWindow with packet_count := 100 }

/-- The ten windows of the rolling baseline scenario: packet_count values
10, 10, 10, 10, 10, 10, 10, 10, 10, 100. -/
def tenBaselineRows : List RawWindow :=
  [baselineRow10, baselineRow10, baselineRow10, baselineRow10,
   baselineRow10, baselineRow10, baselineRow10, baselineRow10,
   baselineRow10, baselineRow100]

/-- The packet_count column of tenBaselineRows as rationals. -/
def tenBaselineVals : List ℚ := [10, 10, 10, 10, 10, 10, 10, 10, 10, 100]

lemma tenBaselineRows_map :
    tenBaselineRows.map (fun w => ((w.packet_count : ℚ))) =
      tenBaselineVals := by
  norm_num [tenBaselineRows, baselineRow10, baselineRow100, zeroWindow,
    tenBaselineVals]

end Aethelstan

namespace Aethelstan

/-- C1: for every value sequence of length at least R and every row i,
the pct_change column of engineer_behavioral_features holds
(x_i − rp) / (rp + 1) where rp is the arithmetic mean of the last
min(i + 1, R) values up to and including row i (the rolling window
indeed spans min(i + 1, R) values); the packets, bytes_per_sec and
flow_count columns all use this same transform; and in the concrete
ten-window scenario 10, ..., 10, 100 with R = 5, the last window has
rp = 28 and pct_change_packets = (100 − 28) / 29 = 72 / 29. -/
theorem rolling_baseline_pct_change :
    (∀ (R : Nat) (xs : List ℚ) (i : Nat), R ≤ xs.length → i < xs.length →
      (pctChange R xs).getD i 0 =
        (xs.getD i 0 - rollingMean R xs i) / (rollingMean R xs i + 1) ∧
      rollingMean R xs i =
        (lastWin R xs i).sum / ((min (i + 1) R : Nat) : ℚ)) ∧
    (∀ (R : Nat) (ws : List RawWindow),
      bfe_pct_change_packets R ws =
        pctChange R (ws.map fun w => (w.packet_count : ℚ)) ∧
      bfe_pct_change_bytes_ps R ws =
        pctChange R (ws.map fun w => w.bytes_per_sec) ∧
      bfe_pct_change_flows R ws =
        pctChange R (ws.map fun w => (w.flow_count : ℚ))) ∧
    (rollingMean 5 tenBaselineVals 9 = 28 ∧
     (bfe_pct_change_packets 5 tenBaselineRows).getD 9 0 = 72 / 29) := by
  have hlast : lastWin 5 tenBaselineVals 9 = [10, 10, 10, 10, 100] := rfl
  have hmean : rollingMean 5 tenBaselineVals 9 = 28 := by
    rw [rollingMean, hlast]
    norm_num
  refine ⟨fun R xs i hR hi => ⟨pctChange_getD R xs i hR hi, ?_⟩,
    fun R ws => ⟨rfl, rfl, rfl⟩, hmean, ?_⟩
  · rw [rollingMean, lastWin_length R xs i hi]
  · rw [bfe_pct_change_packets, tenBaselineRows_map,
      pctChange_getD 5 tenBaselineVals 9 (by norm_num [tenBaselineVals])
        (by norm_num [tenBaselineVals]), hmean]
    norm_num [tenBaselineVals, List.getD]

/-- C1 witness: the general part of the theorem applied at R = 5, the
concrete ten-value column and row 9, with both hypotheses discharged. -/
theorem rolling_baseline_pct_change_witness :
    (pctChange 5 tenBaselineVals).getD 9 0 =
      (tenBaselineVals.getD 9 0 - rollingMean 5 tenBaselineVals 9) /
        (rollingMean 5 tenBaselineVals 9 + 1) ∧
    rollingMean 5 tenBaselineVals 9 =
      (lastWin 5 tenBaselineVals 9).sum / ((min 10 5 : Nat) : ℚ) :=
  rolling_baseline_pct_change.1 5 tenBaselineVals 9
    (by norm_num [tenBaselineVals]) (by norm_num [tenBaselineVals])

/-- Ten windows whose second row spikes to 100 packets, used to show a
nonzero rolling delta at a row index below R. -/
def spikeSecondRows : List RawWindow :=
  [baselineRow10, baselineRow100, baselineRow10, baselineRow10,
   baselineRow10, baselineRow10, baselineRow10, baselineRow10,
   baselineRow10, baselineRow10]

/-- The packet_count column of spikeSecondRows as rationals. -/
def spikeSecondVals : List ℚ := [10, 100, 10, 10, 10, 10, 10, 10, 10, 10]

lemma spikeSecondRows_map :
    spikeSecondRows.map (fun w => ((w.packet_count : ℚ))) =
      spikeSecondVals := by
  norm_num [spikeSecondRows, baselineRow10, baselineRow100, zeroWindow,
    spikeSecondVals]

/-- C3 counterexample: with R = 10 and the ten packet_count values
10, 100, 10, ..., 10, the second row (index 1 < R) has rolling mean
(10 + 100) / 2 = 55 and delta (100 − 55) / 56 = 45 / 56 ≠ 0, so the
rolling deltas of the first R − 1 rows are not all 0. -/
theorem early_row_delta_nonzero :
    (bfe_pct_change_packets 10 spikeSecondRows).getD 1 0 = 45 / 56 ∧
    (bfe_pct_change_packets 10 spikeSecondRows).getD 1 0 ≠ 0 := by
  have hlast : lastWin 10 spikeSecondVals 1 = [10, 100] := rfl
  have hmean : rollingMean 10 spikeSecondVals 1 = 55 := by
    rw [rollingMean, hlast]
    norm_num
  have h : (bfe_pct_change_packets 10 spikeSecondRows).getD 1 0 =
      45 / 56 := by
    rw [bfe_pct_change_packets, spikeSecondRows_map,
      pctChange_getD 10 spikeSecondVals 1 (by norm_num [spikeSecondVals])
        (by norm_num [spikeSecondVals]), hmean]
    norm_num [spikeSecondVals, List.getD]
  exact ⟨h, by rw [h]; norm_num⟩

/-- C3 amended: the rolling deltas of engineer_behavioral_features are 0
for the first row (index 0), because there the prefix mean equals the
current value, and for every row of a sequence shorter than R, because
the short-frame branch writes a constant 0.0 column; rows 0 < i < R use
the available prefix mean and are in general nonzero. -/
theorem rolling_deltas_zero_cases :
    (∀ (R : Nat) (xs : List ℚ), 1 ≤ R → R ≤ xs.length →
      (pctChange R xs).getD 0 0 = 0) ∧
    (∀ (R : Nat) (xs : List ℚ) (i : Nat), xs.length < R →
      (pctChange R xs).getD i 0 = 0) := by
  constructor
  · intro R xs hR hRlen
    match xs with
    | [] => simp at hRlen; omega
    | x :: rest =>
        rw [pctChange_getD R (x :: rest) 0 hRlen (by simp)]
        have hone : lastWin R (x :: rest) 0 = [x] := by
          have h10 : 1 - R = 0 := by omega
          simp [lastWin, h10]
        rw [rollingMean, hone]
        simp
  · intro R xs i hlt
    rw [pctChange, if_neg (by omega)]
    rw [List.getD_eq_getElem?_getD, List.getElem?_replicate]
    split <;> rfl

/-- C3 amended witness: a zero first-row delta for the concrete
ten-value column with R = 10, and a zero delta for a one-value column
shorter than R = 10. -/
theorem rolling_deltas_zero_cases_witness :
    (pctChange 10 spikeSecondVals).getD 0 0 = 0 ∧
    (pctChange 10 [(5 : ℚ)]).getD 0 0 = 0 :=
  ⟨rolling_deltas_zero_cases.1 10 spikeSecondVals (by norm_num)
      (by norm_num [spikeSecondVals]),
    rolling_deltas_zero_cases.2 10 [(5 : ℚ)] 0 (by norm_num)⟩

end Aethelstan

namespace Aethelstan

/-! Embedding of backend/ml/production_inference.py
calculate_contributing_features. The engineered feature frame is a list
of named columns; the per-column median and MAD follow pandas
Series.median, and the stable descending ordering of Python sorted with
reverse=True is realised by a stable insertion sort. -/

/-- A feature frame: named columns of rational values, all of the same
length. -/
abbrev Cols := List (String × List ℚ)

/-- Number of rows of a feature frame (length of its first column). -/
def nRows : Cols → Nat
  | [] => 0
  | c :: _ => c.2.length

/-- Insert into an ascending-sorted list, keeping equals in order. -/
def insertAsc (x : ℚ) : List ℚ → List ℚ
  | [] => [x]
  | y :: rest => if x ≤ y then x :: y :: rest else y :: insertAsc x rest

/-- Ascending insertion sort, used to realise the pandas median. -/
def sortAsc (l : List ℚ) : List ℚ := l.foldr insertAsc []

/-- pandas Series.median: middle of the sorted values for odd length,
mean of the two middle values for even length. -/
def median (xs : List ℚ) : ℚ :=
  let s := sortAsc xs
  if xs.length % 2 = 1 then s.getD (xs.length / 2) 0
  else (s.getD (xs.length / 2 - 1) 0 + s.getD (xs.length / 2) 0) / 2

/-- Median absolute deviation of a column:
(df − medians).abs().median(). -/
def colMad (xs : List ℚ) : ℚ :=
  median (xs.map fun v => |v - median xs|)

/-- Python round to the nearest integer with ties to even, as an exact
operation on rationals. -/
def roundHalfEven (q : ℚ) : ℤ :=
  if q - ⌊q⌋ < 1 / 2 then ⌊q⌋
  else if 1 / 2 < q - ⌊q⌋ then ⌊q⌋ + 1
  else if ⌊q⌋ % 2 = 0 then ⌊q⌋ else ⌊q⌋ + 1

/-- Python round(x, 1): one decimal place, ties to even. -/
def round1 (q : ℚ) : ℚ := (roundHalfEven (q * 10) : ℚ) / 10

/-- The per-row deviation dictionary of calculate_contributing_features:
for each column, |value − median| divided by the MAD when the MAD is
positive and by 1 otherwise (mads[col] if mads[col] > 0 else 1). -/
def deviationsAt (cols : Cols) (idx : Nat) : List (String × ℚ) :=
  cols.map fun c =>
    (c.1, |c.2.getD idx 0 - median c.2| /
      (if 0 < colMad c.2 then colMad c.2 else 1))

/-- Insert into a descending-sorted list after all pairs with a deviation
at least as large, matching the stability of Python sorted. -/
def insertDesc (p : String × ℚ) :
    List (String × ℚ) → List (String × ℚ)
  | [] => [p]
  | q :: rest => if q.2 ≤ p.2 then p :: q :: rest else q :: insertDesc p rest

/-- sorted(deviations.items(), key, reverse=True): stable descending by
deviation. -/
def sortDesc (l : List (String × ℚ)) : List (String × ℚ) :=
  l.foldr insertDesc []

/-- Top contributing features of one anomalous row: take the top_n pairs
of largest deviation and turn each into a percentage of their total,
rounded to one decimal; an all-zero total yields the empty dict. -/
def topContrib (devs : List (String × ℚ)) (top_n : Nat) :
    List (String × ℚ) :=
  let top := (sortDesc devs).take top_n
  let total := (top.map Prod.snd).sum
  if 0 < total then top.map fun p => (p.1, round1 (p.2 / total * 100))
  else []

/-- calculate_contributing_features: one attribution dict per row, the
top contributing features for rows predicted −1 and the empty dict for
all other rows. -/
def calculate_contributing_features (cols : Cols) (predictions : List ℤ)
    (top_n : Nat) : List (List (String × ℚ)) :=
  (List.range (nRows cols)).map fun idx =>
    if predictions.getD idx 1 = -1 then
      topContrib (deviationsAt cols idx) top_n
    else []

/-- Modelled from the claim wording, for comparison with the source
definition: deviations |value − median| / max(MAD, 1). -/
def claimedDeviationsAt (cols : Cols) (idx : Nat) : List (String × ℚ) :=
  cols.map fun c =>
    (c.1, |c.2.getD idx 0 - median c.2| / max (colMad c.2) 1)

/-- Modelled from the claim wording: top five deviations normalized to
percentages summing to 100. -/
def claimedTopContrib (devs : List (String × ℚ)) : List (String × ℚ) :=
  let top := (sortDesc devs).take 5
  let total := (top.map Prod.snd).sum
  if 0 < total then top.map fun p => (p.1, p.2 / total * 100) else []

/-- Modelled from the claim wording: the attribution list built from
claimedDeviationsAt and claimedTopContrib. -/
def claimed_contributing_features (cols : Cols) (predictions : List ℤ) :
    List (List (String × ℚ)) :=
  (List.range (nRows cols)).map fun idx =>
    if predictions.getD idx 1 = -1 then
      claimedTopContrib (claimedDeviationsAt cols idx)
    else []

lemma calc_contrib_getD (cols : Cols) (preds : List ℤ) (top_n idx : Nat)
    (h : idx < nRows cols) :
    (calculate_contributing_features cols preds top_n).getD idx [] =
      if preds.getD idx 1 = -1 then
        topContrib (deviationsAt cols idx) top_n
      else [] := by
  rw [calculate_contributing_features, List.getD_eq_getElem?_getD,
    List.getElem?_map, List.getElem?_range h]
  rfl

lemma claimed_contrib_getD (cols : Cols) (preds : List ℤ) (idx : Nat)
    (h : idx < nRows cols) :
    (claimed_contributing_features cols preds).getD idx [] =
      if preds.getD idx 1 = -1 then
        claimedTopContrib (claimedDeviationsAt cols idx)
      else [] := by
  rw [claimed_contributing_features, List.getD_eq_getElem?_getD,
    List.getElem?_map, List.getElem?_range h]
  rfl

/-- Two feature columns for the MAD-guard comparison: column a has
MAD 1/2 (below 1), column b has MAD 2. -/
def cexCols : Cols :=
  [("a", [0, 1 / 2, 1, 3 / 2, 2]), ("b", [0, 2, 4, 6, 8])]

/-- Predictions marking only the first row anomalous. -/
def cexPreds : List ℤ := [-1, 1, 1, 1, 1]

lemma sum_map_snd_mul (l : List (String × ℚ)) (c : ℚ) :
    (l.map fun p => p.2 * c).sum = (l.map Prod.snd).sum * c := by
  induction l with
  | nil => simp
  | cons p rest ih => simp [ih, add_mul]

/-- C7 counterexample: on two columns where column a has MAD 1/2 and
column b has MAD 2, the anomalous first row gets deviations 2 and 2 from
the source (which divides by the raw MAD whenever it is positive) and
attribution 50% / 50%, while the claimed MAD floor at 1 would give
deviations 1 and 2 and attribution b two thirds, a one third — so the
claimed attribution differs from the computed one. -/
theorem contributing_mad_guard_counterexample :
    (calculate_contributing_features cexCols cexPreds 5).getD 0 [] =
      [("a", 50), ("b", 50)] ∧
    (claimed_contributing_features cexCols cexPreds).getD 0 [] =
      [("b", 200 / 3), ("a", 100 / 3)] ∧
    (calculate_contributing_features cexCols cexPreds 5).getD 0 [] ≠
      (claimed_contributing_features cexCols cexPreds).getD 0 [] := by
  have h0 : (0 : Nat) < nRows cexCols := by norm_num [nRows, cexCols]
  have hpred : cexPreds.getD 0 1 = -1 := by norm_num [cexPreds]
  have hdev : deviationsAt cexCols 0 = [("a", 2), ("b", 2)] := by
    norm_num [deviationsAt, cexCols, colMad, median, sortAsc, insertAsc,
      List.getD, abs]
  have hcdev : claimedDeviationsAt cexCols 0 = [("a", 1), ("b", 2)] := by
    norm_num [claimedDeviationsAt, cexCols, colMad, median, sortAsc,
      insertAsc, List.getD, abs]
  have h1 : (calculate_contributing_features cexCols cexPreds 5).getD 0 []
      = [("a", 50), ("b", 50)] := by
    rw [calc_contrib_getD _ _ _ _ h0, if_pos hpred, hdev]
    norm_num [topContrib, sortDesc, insertDesc, round1, roundHalfEven]
  have h2 : (claimed_contributing_features cexCols cexPreds).getD 0 [] =
      [("b", 200 / 3), ("a", 100 / 3)] := by
    rw [claimed_contrib_getD _ _ _ h0, if_pos hpred, hcdev]
    norm_num [claimedTopContrib, sortDesc, insertDesc]
  exact ⟨h1, h2, by rw [h1, h2]; norm_num⟩

/-- C7 amended: the attribution list has one entry per feature row; rows
not predicted −1 receive the empty attribution; each row predicted −1
receives the top contributing features of its deviation dictionary, which
keeps at most top_n columns; the deviation divides by the raw MAD when it
is positive (replacing it by 1 only when it is not), which agrees with
the claimed floor max(MAD, 1) exactly when every column MAD is at least
1; and the unrounded normalized shares of any kept list with positive
total sum to exactly 100 percent. -/
theorem contributing_features_amended :
    (∀ (cols : Cols) (preds : List ℤ) (top_n : Nat),
      (calculate_contributing_features cols preds top_n).length =
        nRows cols) ∧
    (∀ (cols : Cols) (preds : List ℤ) (top_n idx : Nat),
      preds.getD idx 1 ≠ -1 →
      (calculate_contributing_features cols preds top_n).getD idx [] =
        []) ∧
    (∀ (cols : Cols) (preds : List ℤ) (top_n idx : Nat),
      idx < nRows cols → preds.getD idx 1 = -1 →
      (calculate_contributing_features cols preds top_n).getD idx [] =
        topContrib (deviationsAt cols idx) top_n) ∧
    (∀ (devs : List (String × ℚ)) (top_n : Nat),
      (topContrib devs top_n).length ≤ top_n) ∧
    (∀ (cols : Cols) (idx : Nat), (∀ c ∈ cols, (1 : ℚ) ≤ colMad c.2) →
      deviationsAt cols idx = claimedDeviationsAt cols idx) ∧
    (∀ l : List (String × ℚ), 0 < (l.map Prod.snd).sum →
      (l.map fun p => p.2 / (l.map Prod.snd).sum * 100).sum = 100) := by
  refine ⟨?_, ?_, ?_, ?_, ?_, ?_⟩
  · intro cols preds top_n
    simp [calculate_contributing_features]
  · intro cols preds top_n idx hpred
    by_cases h : idx < nRows cols
    · rw [calc_contrib_getD _ _ _ _ h, if_neg hpred]
    · refine List.getD_eq_default _ _ ?_
      simp [calculate_contributing_features]
      omega
  · intro cols preds top_n idx h hpred
    rw [calc_contrib_getD _ _ _ _ h, if_pos hpred]
  · intro devs top_n
    rw [topContrib]
    split
    · simp only [List.length_map, List.length_take]
      omega
    · simp
  · intro cols idx hmad
    refine List.map_congr_left fun c hc => ?_
    have h1 : (1 : ℚ) ≤ colMad c.2 := hmad c hc
    have hpos : (0 : ℚ) < colMad c.2 := lt_of_lt_of_le one_pos h1
    rw [if_pos hpos, max_eq_left h1]
  · intro l hpos
    have hT : (l.map Prod.snd).sum ≠ 0 := ne_of_gt hpos
    have hfun : (fun p : String × ℚ =>
        p.2 / (l.map Prod.snd).sum * 100) =
        fun p => p.2 * (100 / (l.map Prod.snd).sum) := by
      funext p
      rw [div_mul_eq_mul_div, mul_div_assoc]
    rw [hfun, sum_map_snd_mul]
    field_simp

/-- C7 amended witness: a normal row of the concrete frame receives the
empty attribution, the anomalous first row receives its top contributing
features, and on a frame whose only column has MAD 2 ≥ 1 the source
deviations coincide with the claimed floored ones. -/
theorem contributing_features_amended_witness :
    ((calculate_contributing_features cexCols cexPreds 5).getD 1 [] =
      []) ∧
    ((calculate_contributing_features cexCols cexPreds 5).getD 0 [] =
      topContrib (deviationsAt cexCols 0) 5) ∧
    deviationsAt [("b", [0, 2, 4, 6, 8])] 0 =
      claimedDeviationsAt [("b", [0, 2, 4, 6, 8])] 0 :=
  ⟨contributing_features_amended.2.1 cexCols cexPreds 5 1
      (by norm_num [cexPreds]),
    contributing_features_amended.2.2.1 cexCols cexPreds 5 0
      (by norm_num [nRows, cexCols]) (by norm_num [cexPreds]),
    contributing_features_amended.2.2.2.2.1 [("b", [0, 2, 4, 6, 8])] 0
      (by
        intro c hc
        rw [List.mem_singleton] at hc
        subst hc
        norm_num [colMad, median, sortAsc, insertAsc, List.getD, abs])⟩

end Aethelstan

namespace Aethelstan

/-! Embedding of backend/ml/inference.py
AnomalyPredictor.predict_from_features, old-format branch. The detector
behind model.predict is external, so it enters as an abstract scorer
from the selected columns to a prediction vector. -/

/-- The result dictionary of predict_from_features. -/
structure InferResult where
  predictions : List ℤ
  anomaly_count : Nat
  anomaly_ratio : ℚ
deriving DecidableEq, Repr

/-- Build the result dictionary from the prediction vector:
anomaly_count is (predictions == −1).sum() and anomaly_ratio is
(predictions == −1).mean(), that is, count over length. -/
def mkResult (preds : List ℤ) : InferResult :=
  ⟨preds, preds.count (-1),
    ((preds.count (-1) : ℚ)) / ((preds.length : ℚ))⟩

/-- features_df[self.feature_names]: reindex the frame to the declared
columns in their declared order. -/
def selectCols (df : Cols) (names : List String) : Cols :=
  names.map fun n =>
    (n, (((df.find? fun c => c.1 == n).map Prod.snd).getD []))

/-- predict_from_features for a model declaring feature_names: collect
the declared features absent from the frame, raise (error) when any is
missing, otherwise reindex to the declared columns, score, and assemble
the result dictionary; a model without declared names scores the frame
as given. -/
def predict_from_features (feature_names : Option (List String))
    (scorer : Cols → List ℤ) (df : Cols) :
    Except (List String) InferResult :=
  match feature_names with
  | some names =>
      let missing := names.filter fun n => decide (n ∉ df.map Prod.fst)
      if missing = [] then
        .ok (mkResult (scorer (selectCols df names)))
      else .error missing
  | none => .ok (mkResult (scorer df))

/-- C10: when the model declares feature_names, predict_from_features
raises an error listing exactly the declared features absent from the
frame and raises none when all are present; on success the result has
anomaly_count equal to the number of −1 predictions and anomaly_ratio
equal to that count divided by the number of scored rows, which lies
between 0 and 1 for a nonempty prediction vector. -/
theorem predict_from_features_contract :
    ∀ (names : List String) (scorer : Cols → List ℤ) (df : Cols),
      ((∀ n ∈ names, n ∈ df.map Prod.fst) →
        predict_from_features (some names) scorer df =
          .ok (mkResult (scorer (selectCols df names)))) ∧
      (∀ m, predict_from_features (some names) scorer df = .error m →
        m ≠ [] ∧ ∀ n, n ∈ m ↔ n ∈ names ∧ n ∉ df.map Prod.fst) ∧
      (∀ preds : List ℤ,
        (mkResult preds).anomaly_count = preds.count (-1) ∧
        (mkResult preds).anomaly_ratio =
          ((preds.count (-1) : ℚ)) / ((preds.length : ℚ)) ∧
        (preds ≠ [] → 0 ≤ (mkResult preds).anomaly_ratio ∧
          (mkResult preds).anomaly_ratio ≤ 1)) := by
  intro names scorer df
  refine ⟨?_, ?_, ?_⟩
  · intro hall
    have hmiss : (names.filter fun n => decide (n ∉ df.map Prod.fst)) =
        [] := by
      rw [List.filter_eq_nil_iff]
      intro n hn
      simp [hall n hn]
    rw [predict_from_features]
    simp only [hmiss, if_pos]
  · intro m hm
    rw [predict_from_features] at hm
    by_cases hmiss :
        (names.filter fun n => decide (n ∉ df.map Prod.fst)) = []
    · simp only [hmiss, if_pos] at hm
      exact absurd hm (by simp)
    · simp only [hmiss, if_neg] at hm
      have hm2 : m = names.filter fun n => decide (n ∉ df.map Prod.fst) :=
        by exact (Except.error.injEq _ _).mp hm.symm
      subst hm2
      refine ⟨hmiss, fun n => ?_⟩
      simp [List.mem_filter]
  · intro preds
    refine ⟨rfl, rfl, fun hne => ?_⟩
    have hlen : (0 : ℚ) < (preds.length : ℚ) := by
      have : 0 < preds.length := List.length_pos.mpr hne
      exact_mod_cast this
    constructor
    · exact div_nonneg (by positivity) (le_of_lt hlen)
    · rw [mkResult, div_le_one hlen]
      exact_mod_cast List.count_le_length _ _

/-- C10 witness: a model declaring the single feature x, a frame holding
that column, and a scorer answering [−1, 1]: prediction succeeds with
anomaly_count 1 and anomaly_ratio 1/2, which lies between 0 and 1. -/
theorem predict_from_features_contract_witness :
    predict_from_features (some ["x"]) (fun _ => [-1, 1])
        [("x", [1, 2])] =
      .ok (mkResult ((fun _ => [-1, 1])
        (selectCols [("x", [1, 2])] ["x"]))) ∧
    (0 ≤ (mkResult [-1, 1]).anomaly_ratio ∧
      (mkResult [-1, 1]).anomaly_ratio ≤ 1) :=
  ⟨(predict_from_features_contract ["x"] (fun _ => [-1, 1])
      [("x", [1, 2])]).1 (by simp),
    ((predict_from_features_contract ["x"] (fun _ => [-1, 1])
      [("x", [1, 2])]).2.2 [-1, 1]).2.2 (by simp)⟩

end Aethelstan
